import Mathlib

/-!
Shallow embedding of the codesys-client NVL protocol engine
(src/codesys-client-sender.ts and src/codesys-client-receiver.ts).
Byte buffers are lists of naturals (one per byte); every definition
mirrors one function of the source, with the source's name.
-/

namespace CodesysClient

/-- A raw byte buffer (Node `Buffer`), one natural number per byte. -/
abbrev ByteBuf := List Nat

/-- Node `Buffer.readUInt8`: throws `ERR_OUT_OF_RANGE` when the read
would pass the end of the buffer. -/
def readUInt8 (data : ByteBuf) (pos : Nat) : Except String Nat :=
  if pos + 1 ≤ data.length then .ok (data.getD pos 0)
  else .error "ERR_OUT_OF_RANGE"

/-- Node `Buffer.readUInt16LE` (little endian). -/
def readUInt16LE (data : ByteBuf) (pos : Nat) : Except String Nat :=
  if pos + 2 ≤ data.length then
    .ok (data.getD pos 0 + 256 * data.getD (pos + 1) 0)
  else .error "ERR_OUT_OF_RANGE"

/-- Node `Buffer.readUInt32LE` (little endian). -/
def readUInt32LE (data : ByteBuf) (pos : Nat) : Except String Nat :=
  if pos + 4 ≤ data.length then
    .ok (data.getD pos 0 + 256 * data.getD (pos + 1) 0 +
         65536 * data.getD (pos + 2) 0 + 16777216 * data.getD (pos + 3) 0)
  else .error "ERR_OUT_OF_RANGE"

/-- Node `Buffer.writeUInt8` into a fixed-size buffer. -/
def writeUInt8 (data : ByteBuf) (pos v : Nat) : ByteBuf :=
  data.set pos (v % 256)

/-- Node `Buffer.writeUInt16LE` (little endian). -/
def writeUInt16LE (data : ByteBuf) (pos v : Nat) : ByteBuf :=
  (data.set pos (v % 256)).set (pos + 1) (v / 256 % 256)

/-- Node `Buffer.writeUInt32LE` (little endian). -/
def writeUInt32LE (data : ByteBuf) (pos v : Nat) : ByteBuf :=
  (((data.set pos (v % 256)).set (pos + 1) (v / 256 % 256)).set
    (pos + 2) (v / 65536 % 256)).set (pos + 3) (v / 16777216 % 256)

/-- Node `src.copy(target, pos)`: overlays `src` onto `target` starting at
`pos`, truncating at the end of `target`. -/
def bufferCopy (target : ByteBuf) (pos : Nat) (src : ByteBuf) : ByteBuf :=
  target.take pos ++ src.take (target.length - pos) ++ target.drop (pos + src.length)

/-- Packet header object (types.ts `PacketHeader`). `payloadLength` is a
JS number that the parser sets to `packetLength - 20`, which can go
negative, so it is an `Int`. -/
structure PacketHeader where
  rawData : ByteBuf
  identity : ByteBuf
  type : Nat
  index : Nat
  subIndex : Nat
  variableCount : Nat
  packetLength : Nat
  counter : Nat
  flags : Nat
  flagsStr : List String
  checksum : Nat
  payloadLength : Int
  deriving Repr, DecidableEq

/-- types.ts `PacketData` (the unused `parsed` record is dropped). -/
structure PacketData where
  rawData : ByteBuf
  deriving Repr, DecidableEq

/-- types.ts `Packet`. -/
structure Packet where
  header : PacketHeader
  payload : PacketData
  rawData : ByteBuf
  deriving Repr, DecidableEq

/-- types.ts `PacketBufferEntry`. -/
structure PacketBufferEntry where
  handled : Bool
  counter : Nat
  packets : List Packet
  totalDataBytes : Nat
  deriving Repr, DecidableEq

/-- types.ts `Listener`. The IEC data-type collaborator is represented by
the only datum the protocol engine reads from it, `dataType.byteLength`;
its `convertFromBuffer` is opaque, so callback invocations are recorded
with the raw assembled buffer handed to that converter. -/
structure Listener where
  listID : Nat
  byteLength : Nat
  deriving Repr, DecidableEq

/-- The Receiver's instance state: `socket`, `handlers`, `packetBuffer`
(the per-listID record modelled as an association list). -/
structure ReceiverState where
  socket : Option Nat
  handlers : List Listener
  packetBuffer : List (Nat × PacketBufferEntry)
  deriving Repr, DecidableEq

/-- One callback invocation: the listener called and the assembled raw
buffer handed to its data type's `convertFromBuffer`. -/
abbrev Delivery := Listener × ByteBuf

/-- JS `this.packetBuffer[index]` lookup. -/
def lookupBuffer : List (Nat × PacketBufferEntry) → Nat → Option PacketBufferEntry
  | [], _ => none
  | (k, v) :: rest, i => if k = i then some v else lookupBuffer rest i

/-- JS `this.packetBuffer[index] = entry` assignment. -/
def setBuffer : List (Nat × PacketBufferEntry) → Nat → PacketBufferEntry →
    List (Nat × PacketBufferEntry)
  | [], i, v => [(i, v)]
  | (k, w) :: rest, i, v =>
    if k = i then (i, v) :: rest else (k, w) :: setBuffer rest i v

/-- JS `delete this.packetBuffer[index]`. -/
def deleteBuffer : List (Nat × PacketBufferEntry) → Nat → List (Nat × PacketBufferEntry)
  | [], _ => []
  | (k, w) :: rest, i =>
    if k = i then deleteBuffer rest i else (k, w) :: deleteBuffer rest i

/-- Receiver.parseHeaderFlags. -/
def parseHeaderFlags (flags : Nat) : List String :=
  (if flags &&& 1 = 1 then ["SendAckRequested"] else []) ++
  (if flags &&& 2 = 2 then ["ChecksumIncluded"] else []) ++
  (if flags &&& 4 = 4 then ["InvalidChecksum"] else [])

/-- Receiver.parseReceivedPacketHeader. The source's `byteLength < 20`
guard has an empty body (a TODO), so a short datagram reaches the reads
below, whose out-of-range accesses throw. The running `pos` reads flags
at offset 18 and checksum at offset 19 (the source comments are off by
one). -/
def parseReceivedPacketHeader (data : ByteBuf) : Except String PacketHeader := do
  let rawData := data.take 20
  let identity := data.take 4
  let type ← readUInt32LE data 4
  let index ← readUInt16LE data 8
  let subIndex ← readUInt16LE data 10
  let variableCount ← readUInt16LE data 12
  let packetLength ← readUInt16LE data 14
  let counter ← readUInt16LE data 16
  let flags ← readUInt8 data 18
  let checksum ← readUInt8 data 19
  return {
    rawData := rawData
    identity := identity
    type := type
    index := index
    subIndex := subIndex
    variableCount := variableCount
    packetLength := packetLength
    counter := counter
    flags := flags
    flagsStr := parseHeaderFlags flags
    checksum := checksum
    payloadLength := (packetLength : Int) - 20
  }

/-- Receiver.parseReceivedPacket: the payload is everything after the raw
header slice (`data.slice(header.rawData.byteLength)`). -/
def parseReceivedPacket (data : ByteBuf) : Except String Packet := do
  let header ← parseReceivedPacketHeader data
  return {
    header := header
    payload := { rawData := data.drop header.rawData.length }
    rawData := data
  }

/-- Receiver.convertBufferEntriesToPacket: allocate `totalDataBytes` zero
bytes, then copy each stored payload at a running position. -/
def convertBufferEntriesToPacket (buffer : PacketBufferEntry) : ByteBuf :=
  (buffer.packets.foldl
    (fun acc packet =>
      (bufferCopy acc.1 acc.2 packet.payload.rawData,
       acc.2 + packet.payload.rawData.length))
    (List.replicate buffer.totalDataBytes 0, 0)).1

/-- Receiver.checkReceivedPacket: completeness check against the first
matching handler's `dataType.byteLength`; on an exact match every
matching handler's callback runs and the entry is marked handled; with no
matching handler the entry is deleted; on either size mismatch nothing
happens beyond logging. -/
def checkReceivedPacket (st : ReceiverState) (index : Nat)
    (buffer : PacketBufferEntry) : ReceiverState × List Delivery :=
  let listeners := st.handlers.filter (fun l => l.listID == index)
  match listeners with
  | [] =>
    ({ st with packetBuffer := deleteBuffer st.packetBuffer index }, [])
  | l0 :: _ =>
    if l0.byteLength = buffer.totalDataBytes then
      let data := convertBufferEntriesToPacket buffer
      ({ st with
          packetBuffer := setBuffer st.packetBuffer index { buffer with handled := true } },
       listeners.map (fun l => (l, data)))
    else
      (st, [])

/-- subIndex of `buffer.packets[buffer.packets.length - 1]` (entries
always hold at least one packet). -/
def lastSubIndex (buffer : PacketBufferEntry) : Nat :=
  ((buffer.packets.getLast?).map (fun p => p.header.subIndex)).getD 0

/-- Receiver.handleReceivedPacket. Returns the new state and the callback
invocations performed. -/
def handleReceivedPacket (st : ReceiverState) (packet : Packet) :
    ReceiverState × List Delivery :=
  let index := packet.header.index
  match lookupBuffer st.packetBuffer index with
  | some buffer =>
    if buffer.counter = packet.header.counter then
      if packet.header.subIndex = lastSubIndex buffer + 1 then
        let buffer' : PacketBufferEntry :=
          { buffer with
              packets := buffer.packets ++ [packet]
              totalDataBytes := buffer.totalDataBytes + packet.payload.rawData.length }
        let st' := { st with packetBuffer := setBuffer st.packetBuffer index buffer' }
        checkReceivedPacket st' index buffer'
      else
        -- gap: delete the entry; the source also clears its local
        -- `buffer` reference here, so no completeness check runs
        ({ st with packetBuffer := deleteBuffer st.packetBuffer index }, [])
    else
      let st1 :=
        if buffer.handled then st
        else { st with packetBuffer := deleteBuffer st.packetBuffer index }
      if packet.header.subIndex = 0 then
        let newBuffer : PacketBufferEntry :=
          { handled := false
            counter := packet.header.counter
            packets := [packet]
            totalDataBytes := packet.payload.rawData.length }
        let st2 := { st1 with packetBuffer := setBuffer st1.packetBuffer index newBuffer }
        checkReceivedPacket st2 index newBuffer
      else
        -- the source's local `buffer` still references the old entry
        -- here, so its final `if (buffer)` runs the completeness check
        -- on it: a handled entry is still in the map and is checked in
        -- place; an unhandled entry was just deleted from the map, so
        -- only the check's callbacks are visible (its `handled := true`
        -- write lands on the detached object and its delete of the
        -- absent key is a no-op)
        if buffer.handled then
          checkReceivedPacket st1 index buffer
        else
          (st1, (checkReceivedPacket st1 index buffer).2)
  | none =>
    if packet.header.subIndex = 0 then
      let newBuffer : PacketBufferEntry :=
        { handled := false
          counter := packet.header.counter
          packets := [packet]
          totalDataBytes := packet.payload.rawData.length }
      let st2 := { st with packetBuffer := setBuffer st.packetBuffer index newBuffer }
      checkReceivedPacket st2 index newBuffer
    else
      (st, [])

/-- Receiver.handleReceivedData composed with parseReceivedPacket: there
is no catch anywhere on this path, so a parse error propagates out of the
socket message callback. -/
def handleReceivedData (st : ReceiverState) (data : ByteBuf) :
    Except String (ReceiverState × List Delivery) := do
  let packet ← parseReceivedPacket data
  return handleReceivedPacket st packet

/-- Receiver.listen, synchronous decision logic: `newSocket` stands for
the dgram socket the host would create, `bindOk` for the outcome of the
external bind. When a socket already exists the call rejects before
creating anything; otherwise the socket field is assigned before binding
(so it stays assigned even when binding fails). Returns the new state and
the promise outcome. -/
def listen (st : ReceiverState) (newSocket : Nat) (bindOk : Bool) :
    ReceiverState × Except String Nat :=
  match st.socket with
  | some _ =>
    (st, .error "Failed to start listening - there is already a connection")
  | none =>
    let st' := { st with socket := some newSocket }
    if bindOk then (st', .ok newSocket)
    else (st', .error "Binding to UDP port failed")

/-- One leaf field yielded by `dataType.elementIterator()` (its
`startIndex` and `type.byteLength`). -/
structure Element where
  startIndex : Nat
  byteLength : Nat
  deriving Repr, DecidableEq

/-- Sender.send's getEmptyPacket helper. -/
def getEmptyPacket (listID counterNo : Nat) : Packet :=
  { header :=
      { rawData := []
        identity := [0x00, 0x2d, 0x53, 0x33]
        type := 0
        index := listID
        subIndex := 0
        variableCount := 0
        packetLength := 20
        counter := counterNo
        flags := 0
        flagsStr := []
        checksum := 0
        payloadLength := 0 }
    payload := { rawData := [] }
    rawData := [] }

/-- One iteration of Sender.send's element loop: close the current packet
when the element will not fit, then append the element's slice of the raw
data to the current packet. -/
def sendStep (listID counterNo : Nat) (rawData : ByteBuf)
    (acc : List Packet × Packet) (element : Element) : List Packet × Packet :=
  let (packets, packet) :=
    if acc.2.header.payloadLength + (element.byteLength : Int) > 256 then
      (acc.1 ++ [acc.2],
       { getEmptyPacket listID counterNo with
           header := { (getEmptyPacket listID counterNo).header with
                        subIndex := acc.2.header.subIndex + 1 } })
    else
      acc
  let elementRawData := (rawData.drop element.startIndex).take element.byteLength
  (packets,
   { packet with
       header := { packet.header with
         variableCount := packet.header.variableCount + 1
         payloadLength := packet.header.payloadLength + (element.byteLength : Int)
         packetLength := packet.header.packetLength + element.byteLength }
       payload := { rawData := packet.payload.rawData ++ elementRawData } })

/-- Sender.send's packet-splitting loop over the data type's element
iterator, ending with the final `packets.push(packet)`. -/
def splitToPackets (listID counterNo : Nat) (elements : List Element)
    (rawData : ByteBuf) : List Packet :=
  let fin := elements.foldl (sendStep listID counterNo rawData)
    ([], getEmptyPacket listID counterNo)
  fin.1 ++ [fin.2]

/-- Sender.send's counter update: reset the stored value to 0 once it has
reached 65535, then use it and post-increment. Returns (counter used,
next stored value). -/
def counterStep (counterNumber : Nat) : Nat × Nat :=
  let c := if counterNumber ≥ 65535 then 0 else counterNumber
  (c, c + 1)

/-- Stored `counterNumber` after n send calls on a fresh Sender. -/
def stateAfter : Nat → Nat
  | 0 => 0
  | n + 1 => (counterStep (stateAfter n)).2

/-- Counter value used by the (n+1)-st send call on a fresh Sender. -/
def nthCounter (n : Nat) : Nat := (counterStep (stateAfter n)).1

/-- Sender.createPacketHeader: 20-byte little-endian header encoder. The
running `pos` lands on 18 for the flags byte and 19 for the checksum byte
(the source comments are off by one). -/
def createPacketHeader (packet : Packet) : ByteBuf :=
  let d0 := List.replicate 20 0
  let d1 := bufferCopy d0 0 packet.header.identity
  let d2 := writeUInt32LE d1 4 packet.header.type
  let d3 := writeUInt16LE d2 8 packet.header.index
  let d4 := writeUInt16LE d3 10 packet.header.subIndex
  let d5 := writeUInt16LE d4 12 packet.header.variableCount
  let d6 := writeUInt16LE d5 14 packet.header.packetLength
  let d7 := writeUInt16LE d6 16 packet.header.counter
  let d8 := writeUInt8 d7 18 packet.header.flags
  writeUInt8 d8 19 packet.header.checksum

/-- Sum of the stored fragments' actual payload lengths. -/
def sumPayloadLengths (packets : List Packet) : Nat :=
  (packets.map (fun p => p.payload.rawData.length)).sum

/-- Builds a concrete packet for evaluating the receive path. -/
def mkPacket (index subIndex counter : Nat) (payload : ByteBuf) : Packet :=
  { header :=
      { rawData := []
        identity := []
        type := 0
        index := index
        subIndex := subIndex
        variableCount := 0
        packetLength := 20 + payload.length
        counter := counter
        flags := 0
        flagsStr := []
        checksum := 0
        payloadLength := payload.length }
    payload := { rawData := payload }
    rawData := [] }

/-! ## Helper lemmas -/

lemma counterStep_fst (m : Nat) :
    (counterStep m).1 = if m ≥ 65535 then 0 else m := rfl

lemma counterStep_snd (m : Nat) :
    (counterStep m).2 = (if m ≥ 65535 then 0 else m) + 1 := rfl

lemma stateAfter_succ (n : Nat) : stateAfter (n + 1) = n % 65535 + 1 := by
  induction n with
  | zero => rfl
  | succ n ih =>
    show (counterStep (stateAfter (n + 1))).2 = (n + 1) % 65535 + 1
    rw [ih, counterStep_snd]
    split <;> omega

lemma nthCounter_eq (n : Nat) : nthCounter n = n % 65535 := by
  cases n with
  | zero => rfl
  | succ n =>
    show (counterStep (stateAfter (n + 1))).1 = (n + 1) % 65535
    rw [stateAfter_succ, counterStep_fst]
    split <;> omega

lemma parseReceivedPacketHeader_short {data : ByteBuf} (h : data.length < 20) :
    ∃ msg, parseReceivedPacketHeader data = .error msg := by
  unfold parseReceivedPacketHeader readUInt32LE readUInt16LE readUInt8
  by_cases h4 : 4 + 4 ≤ data.length
  case neg => rw [if_neg h4]; exact ⟨_, rfl⟩
  rw [if_pos h4]
  by_cases h8 : 8 + 2 ≤ data.length
  case neg => rw [if_neg h8]; exact ⟨_, rfl⟩
  rw [if_pos h8]
  by_cases h10 : 10 + 2 ≤ data.length
  case neg => rw [if_neg h10]; exact ⟨_, rfl⟩
  rw [if_pos h10]
  by_cases h12 : 12 + 2 ≤ data.length
  case neg => rw [if_neg h12]; exact ⟨_, rfl⟩
  rw [if_pos h12]
  by_cases h14 : 14 + 2 ≤ data.length
  case neg => rw [if_neg h14]; exact ⟨_, rfl⟩
  rw [if_pos h14]
  by_cases h16 : 16 + 2 ≤ data.length
  case neg => rw [if_neg h16]; exact ⟨_, rfl⟩
  rw [if_pos h16]
  by_cases h18 : 18 + 1 ≤ data.length
  case neg => rw [if_neg h18]; exact ⟨_, rfl⟩
  rw [if_pos h18]
  rw [if_neg (show ¬(19 + 1 ≤ data.length) by omega)]
  exact ⟨_, rfl⟩

lemma lookupBuffer_deleteBuffer (m : List (Nat × PacketBufferEntry)) (i : Nat) :
    lookupBuffer (deleteBuffer m i) i = none := by
  induction m with
  | nil => rfl
  | cons kv rest ih =>
    obtain ⟨k, w⟩ := kv
    by_cases h : k = i <;> simp [deleteBuffer, lookupBuffer, h, ih]

lemma lookupBuffer_setBuffer_self (m : List (Nat × PacketBufferEntry)) (i : Nat)
    (v : PacketBufferEntry) : lookupBuffer (setBuffer m i v) i = some v := by
  induction m with
  | nil => simp [setBuffer, lookupBuffer]
  | cons kv rest ih =>
    obtain ⟨k, w⟩ := kv
    by_cases h : k = i <;> simp [setBuffer, lookupBuffer, h, ih]

lemma getD_set_self (l : ByteBuf) (i v : Nat) (h : i < l.length) :
    (l.set i v).getD i 0 = v := by
  simp [List.getD_eq_getElem?_getD, List.getElem?_set, h]

lemma getD_set_other (l : ByteBuf) (i j v : Nat) (h : i ≠ j) :
    (l.set i v).getD j 0 = l.getD j 0 := by
  simp [List.getD_eq_getElem?_getD, List.getElem?_set, h]

lemma length_writeUInt8 (d : ByteBuf) (p v : Nat) :
    (writeUInt8 d p v).length = d.length := by simp [writeUInt8]

lemma length_writeUInt16LE (d : ByteBuf) (p v : Nat) :
    (writeUInt16LE d p v).length = d.length := by simp [writeUInt16LE]

lemma length_writeUInt32LE (d : ByteBuf) (p v : Nat) :
    (writeUInt32LE d p v).length = d.length := by simp [writeUInt32LE]

lemma createPacketHeader_fields (p : Packet) :
    (createPacketHeader p).length = 20 ∧
    (createPacketHeader p).getD 18 0 = p.header.flags % 256 ∧
    (createPacketHeader p).getD 19 0 = p.header.checksum % 256 := by
  have e : createPacketHeader p =
      writeUInt8 (writeUInt8
        (writeUInt16LE (writeUInt16LE (writeUInt16LE (writeUInt16LE (writeUInt16LE
          (writeUInt32LE (bufferCopy (List.replicate 20 0) 0 p.header.identity)
            4 p.header.type)
          8 p.header.index) 10 p.header.subIndex) 12 p.header.variableCount)
          14 p.header.packetLength) 16 p.header.counter)
        18 p.header.flags) 19 p.header.checksum := rfl
  have h7 : (writeUInt16LE (writeUInt16LE (writeUInt16LE (writeUInt16LE (writeUInt16LE
      (writeUInt32LE (bufferCopy (List.replicate 20 0) 0 p.header.identity)
        4 p.header.type)
      8 p.header.index) 10 p.header.subIndex) 12 p.header.variableCount)
      14 p.header.packetLength) 16 p.header.counter).length = 20 := by
    simp only [length_writeUInt16LE, length_writeUInt32LE]
    simp [bufferCopy]
    omega
  rw [e]
  refine ⟨?_, ?_, ?_⟩
  · rw [length_writeUInt8, length_writeUInt8, h7]
  · rw [writeUInt8, writeUInt8, getD_set_other _ 19 18 _ (by omega),
      getD_set_self _ 18 _ (by rw [h7]; omega)]
  · rw [writeUInt8, writeUInt8, getD_set_self _ 19 _ (by rw [List.length_set, h7]; omega)]

lemma parseReceivedPacketHeader_ok {data : ByteBuf} (h : 20 ≤ data.length) :
    parseReceivedPacketHeader data = .ok
      { rawData := data.take 20
        identity := data.take 4
        type := data.getD 4 0 + 256 * data.getD (4 + 1) 0 +
          65536 * data.getD (4 + 2) 0 + 16777216 * data.getD (4 + 3) 0
        index := data.getD 8 0 + 256 * data.getD (8 + 1) 0
        subIndex := data.getD 10 0 + 256 * data.getD (10 + 1) 0
        variableCount := data.getD 12 0 + 256 * data.getD (12 + 1) 0
        packetLength := data.getD 14 0 + 256 * data.getD (14 + 1) 0
        counter := data.getD 16 0 + 256 * data.getD (16 + 1) 0
        flags := data.getD 18 0
        flagsStr := parseHeaderFlags (data.getD 18 0)
        checksum := data.getD 19 0
        payloadLength := ((data.getD 14 0 + 256 * data.getD (14 + 1) 0 : Nat) : Int) - 20 } := by
  unfold parseReceivedPacketHeader readUInt32LE readUInt16LE readUInt8
  rw [if_pos (show 4 + 4 ≤ data.length by omega),
    if_pos (show 8 + 2 ≤ data.length by omega),
    if_pos (show 10 + 2 ≤ data.length by omega),
    if_pos (show 12 + 2 ≤ data.length by omega),
    if_pos (show 14 + 2 ≤ data.length by omega),
    if_pos (show 16 + 2 ≤ data.length by omega),
    if_pos (show 18 + 1 ≤ data.length by omega),
    if_pos (show 19 + 1 ≤ data.length by omega)]
  rfl

lemma parseReceivedPacket_ok {data : ByteBuf} (h : 20 ≤ data.length) :
    ∃ p, parseReceivedPacket data = .ok p ∧
      p.payload.rawData = data.drop 20 ∧
      p.payload.rawData.length = data.length - 20 ∧
      p.header.flags = data.getD 18 0 ∧
      p.header.checksum = data.getD 19 0 ∧
      p.header.packetLength = data.getD 14 0 + 256 * data.getD (14 + 1) 0 := by
  have htake : (data.take 20).length = 20 := by
    simp [List.length_take]
    omega
  unfold parseReceivedPacket
  rw [parseReceivedPacketHeader_ok h]
  refine ⟨_, rfl, ?_, ?_, rfl, rfl, rfl⟩
  · show data.drop (data.take 20).length = data.drop 20
    rw [htake]
  · show (data.drop (data.take 20).length).length = data.length - 20
    rw [htake, List.length_drop]

lemma convert_fold (packets : List Packet) (done : ByteBuf) :
    (packets.foldl
      (fun acc packet =>
        (bufferCopy acc.1 acc.2 packet.payload.rawData,
         acc.2 + packet.payload.rawData.length))
      (done ++ List.replicate (sumPayloadLengths packets) 0, done.length)).1
    = done ++ (packets.map (fun p => p.payload.rawData)).flatten := by
  induction packets generalizing done with
  | nil => simp [sumPayloadLengths]
  | cons p ps ih =>
    have hsum : sumPayloadLengths (p :: ps)
        = p.payload.rawData.length + sumPayloadLengths ps := by
      simp [sumPayloadLengths]
    have hcopy :
        bufferCopy (done ++ List.replicate (sumPayloadLengths (p :: ps)) 0)
          done.length p.payload.rawData
        = (done ++ p.payload.rawData) ++ List.replicate (sumPayloadLengths ps) 0 := by
      unfold bufferCopy
      rw [List.take_left, List.drop_append, List.drop_replicate]
      simp only [List.length_append, List.length_replicate]
      rw [show done.length + sumPayloadLengths (p :: ps) - done.length
            = sumPayloadLengths (p :: ps) from by omega]
      rw [List.take_of_length_le (by omega)]
      rw [show sumPayloadLengths (p :: ps) - p.payload.rawData.length
            = sumPayloadLengths ps from by omega]
    rw [List.foldl_cons]
    show (ps.foldl _
      (bufferCopy (done ++ List.replicate (sumPayloadLengths (p :: ps)) 0)
        done.length p.payload.rawData,
       done.length + p.payload.rawData.length)).1 = _
    rw [hcopy,
      show done.length + p.payload.rawData.length
        = (done ++ p.payload.rawData).length from by simp,
      ih (done ++ p.payload.rawData)]
    simp

lemma convertBufferEntriesToPacket_eq (buffer : PacketBufferEntry)
    (h : buffer.totalDataBytes = sumPayloadLengths buffer.packets) :
    convertBufferEntriesToPacket buffer =
      (buffer.packets.map (fun p => p.payload.rawData)).flatten := by
  have hf := convert_fold buffer.packets []
  simp only [List.nil_append, List.length_nil] at hf
  unfold convertBufferEntriesToPacket
  rw [h]
  exact hf
def samplePacket : Packet :=
  { getEmptyPacket 1 2 with
      header := { (getEmptyPacket 1 2).header with flags := 171, checksum := 205 } }

/-! ## Claim theorems -/

/-- C2 counterexample: on a fresh Sender, the 65535-th send call uses
counter 65534 and the 65536-th uses counter 0 — the value 65535 is
skipped, so the counter does not take every value of the 16-bit range
and does not increment modulo 65536. -/
theorem C2_counterexample :
    nthCounter 65534 = 65534 ∧ nthCounter 65535 = 0 ∧ nthCounter 65535 ≠ 65535 := by
  refine ⟨?_, ?_, ?_⟩
  · rw [nthCounter_eq]
  · rw [nthCounter_eq]
  · rw [nthCounter_eq]; decide

/-- C2 (amended): the sender's per-message counter increments modulo
65535, not 65536: the (n+1)-st send call on a fresh Sender uses counter
n % 65535, so the counter reaches 65534 and the next logical message
uses counter 0; the value 65535 is never used. -/
theorem C2_amended_counter_mod_65535 (n : Nat) : nthCounter n = n % 65535 :=
  nthCounter_eq n

/-- C3: a received datagram shorter than 20 bytes is not dropped as a
MalformedHeader — the source's length guard has an empty (TODO) body, so
the header reads run past the end of the buffer and throw; nothing on the
receive path catches the error, so it propagates out of the socket
message callback instead of the fragment being dropped silently. -/
theorem C3_short_datagram_throws (st : ReceiverState) (data : ByteBuf)
    (h : data.length < 20) : ∃ msg, handleReceivedData st data = .error msg := by
  obtain ⟨msg, hmsg⟩ := parseReceivedPacketHeader_short h
  refine ⟨msg, ?_⟩
  unfold handleReceivedData parseReceivedPacket
  rw [hmsg]
  rfl

/-- Witness for C3 at a concrete 19-byte datagram. -/
theorem C3_short_datagram_throws_witness :
    (List.replicate 19 0).length < 20 ∧
    ∃ msg, handleReceivedData ⟨none, [], []⟩ (List.replicate 19 0) = .error msg :=
  ⟨by decide, C3_short_datagram_throws ⟨none, [], []⟩ (List.replicate 19 0) (by decide)⟩

/-- C8: calling listen while the receiver is already listening rejects
the call without side effects: the state (socket, handlers, packet
buffer map) is returned unchanged and no new socket is created. -/
theorem C8_listen_already_listening (st : ReceiverState) (k newSocket : Nat)
    (bindOk : Bool) (h : st.socket = some k) :
    listen st newSocket bindOk =
      (st, .error "Failed to start listening - there is already a connection") := by
  unfold listen
  rw [h]

/-- Witness for C8 at a concrete already-listening state. -/
theorem C8_listen_already_listening_witness :
    (⟨some 3, [⟨1, 2⟩], []⟩ : ReceiverState).socket = some 3 ∧
    listen ⟨some 3, [⟨1, 2⟩], []⟩ 7 true =
      (⟨some 3, [⟨1, 2⟩], []⟩,
       .error "Failed to start listening - there is already a connection") :=
  ⟨rfl, C8_listen_already_listening ⟨some 3, [⟨1, 2⟩], []⟩ 3 7 true rfl⟩

/-- C4 counterexample: for a concrete header with flags 171 and checksum
205, the encoder emits a 20-byte buffer whose byte at offset 18 is the
flags and whose byte at offset 19 is the checksum: the byte at offset 19
is not the flags, and a 20-byte header has no offset 20 at all. -/
theorem C4_counterexample :
    (createPacketHeader samplePacket).length = 20 ∧
    (createPacketHeader samplePacket).getD 18 0 = 171 ∧
    (createPacketHeader samplePacket).getD 19 0 = 205 ∧
    (createPacketHeader samplePacket).getD 19 0 ≠ samplePacket.header.flags := by
  decide

/-- C4 (amended): the packet header is a fixed 20 bytes, little-endian,
with the flags byte at offset 18 and the checksum byte at offset 19; the
header encoder writes, and the header decoder reads, these two fields at
exactly those offsets. -/
theorem C4_amended_header_offsets (p : Packet) (data : ByteBuf)
    (hf : p.header.flags < 256) (hc : p.header.checksum < 256)
    (hd : 20 ≤ data.length) :
    (createPacketHeader p).length = 20 ∧
    (createPacketHeader p).getD 18 0 = p.header.flags ∧
    (createPacketHeader p).getD 19 0 = p.header.checksum ∧
    ∃ h, parseReceivedPacketHeader data = .ok h ∧
      h.flags = data.getD 18 0 ∧ h.checksum = data.getD 19 0 := by
  obtain ⟨hl, h18, h19⟩ := createPacketHeader_fields p
  refine ⟨hl, ?_, ?_, ⟨_, parseReceivedPacketHeader_ok hd, rfl, rfl⟩⟩
  · rw [h18, Nat.mod_eq_of_lt hf]
  · rw [h19, Nat.mod_eq_of_lt hc]

/-- Witness for the amended C4 at a concrete packet and datagram. -/
theorem C4_amended_header_offsets_witness :
    samplePacket.header.flags < 256 ∧ samplePacket.header.checksum < 256 ∧
    20 ≤ (List.replicate 20 3 : ByteBuf).length ∧
    ((createPacketHeader samplePacket).length = 20 ∧
     (createPacketHeader samplePacket).getD 18 0 = samplePacket.header.flags ∧
     (createPacketHeader samplePacket).getD 19 0 = samplePacket.header.checksum ∧
     ∃ h, parseReceivedPacketHeader (List.replicate 20 3) = .ok h ∧
       h.flags = (List.replicate 20 3 : ByteBuf).getD 18 0 ∧
       h.checksum = (List.replicate 20 3 : ByteBuf).getD 19 0) :=
  ⟨by decide, by decide, by decide,
   C4_amended_header_offsets samplePacket (List.replicate 20 3)
     (by decide) (by decide) (by decide)⟩

/-- C5: completeness gate. With listeners registered for `index` (the
first match l0 fixing the expected byte length E = l0.byteLength) and an
entry whose totalDataBytes is the sum of its stored payload lengths:
below E the check changes nothing and no callback runs; at exactly E
every matching listener's callback is invoked with the stored fragment
payloads concatenated in stored (subIndex) order, handed to the schema
converter, and the entry is marked handled; above E no callback runs,
nothing crashes, and the entry is kept as-is. -/
theorem C5_completeness_gate (st : ReceiverState) (index : Nat)
    (buffer : PacketBufferEntry) (l0 : Listener) (ls : List Listener)
    (hfilter : st.handlers.filter (fun l => l.listID == index) = l0 :: ls)
    (hsum : buffer.totalDataBytes = sumPayloadLengths buffer.packets) :
    (buffer.totalDataBytes < l0.byteLength →
      checkReceivedPacket st index buffer = (st, [])) ∧
    (buffer.totalDataBytes = l0.byteLength →
      checkReceivedPacket st index buffer =
        ({ st with packetBuffer :=
            setBuffer st.packetBuffer index { buffer with handled := true } },
         (l0 :: ls).map (fun l =>
           (l, (buffer.packets.map (fun p => p.payload.rawData)).flatten)))) ∧
    (l0.byteLength < buffer.totalDataBytes →
      checkReceivedPacket st index buffer = (st, [])) := by
  unfold checkReceivedPacket
  rw [hfilter]
  dsimp only
  refine ⟨?_, ?_, ?_⟩
  · intro hlt
    rw [if_neg (by omega)]
  · intro heq
    rw [if_pos heq.symm, convertBufferEntriesToPacket_eq buffer hsum]
  · intro hgt
    rw [if_neg (by omega)]

/-- Witness for C5 at a concrete state, listener and complete entry. -/
theorem C5_completeness_gate_witness :
    (⟨some 1, [⟨5, 2⟩], [(5, ⟨false, 3, [mkPacket 5 0 3 [1, 2]], 2⟩)]⟩
        : ReceiverState).handlers.filter (fun l => l.listID == 5)
      = (⟨5, 2⟩ : Listener) :: [] ∧
    (⟨false, 3, [mkPacket 5 0 3 [1, 2]], 2⟩ : PacketBufferEntry).totalDataBytes
      = sumPayloadLengths (⟨false, 3, [mkPacket 5 0 3 [1, 2]], 2⟩
          : PacketBufferEntry).packets ∧
    (((⟨false, 3, [mkPacket 5 0 3 [1, 2]], 2⟩ : PacketBufferEntry).totalDataBytes <
        (⟨5, 2⟩ : Listener).byteLength →
      checkReceivedPacket
        ⟨some 1, [⟨5, 2⟩], [(5, ⟨false, 3, [mkPacket 5 0 3 [1, 2]], 2⟩)]⟩ 5
        ⟨false, 3, [mkPacket 5 0 3 [1, 2]], 2⟩
      = (⟨some 1, [⟨5, 2⟩], [(5, ⟨false, 3, [mkPacket 5 0 3 [1, 2]], 2⟩)]⟩, [])) ∧
     ((⟨false, 3, [mkPacket 5 0 3 [1, 2]], 2⟩ : PacketBufferEntry).totalDataBytes =
        (⟨5, 2⟩ : Listener).byteLength →
      checkReceivedPacket
        ⟨some 1, [⟨5, 2⟩], [(5, ⟨false, 3, [mkPacket 5 0 3 [1, 2]], 2⟩)]⟩ 5
        ⟨false, 3, [mkPacket 5 0 3 [1, 2]], 2⟩
      = ({ (⟨some 1, [⟨5, 2⟩], [(5, ⟨false, 3, [mkPacket 5 0 3 [1, 2]], 2⟩)]⟩
              : ReceiverState) with
            packetBuffer := setBuffer
              (⟨some 1, [⟨5, 2⟩], [(5, ⟨false, 3, [mkPacket 5 0 3 [1, 2]], 2⟩)]⟩
                : ReceiverState).packetBuffer 5
              { (⟨false, 3, [mkPacket 5 0 3 [1, 2]], 2⟩ : PacketBufferEntry) with
                  handled := true } },
         ((⟨5, 2⟩ : Listener) :: []).map (fun l =>
           (l, (((⟨false, 3, [mkPacket 5 0 3 [1, 2]], 2⟩
              : PacketBufferEntry).packets.map
                (fun p => p.payload.rawData)).flatten))))) ∧
     ((⟨5, 2⟩ : Listener).byteLength <
        (⟨false, 3, [mkPacket 5 0 3 [1, 2]], 2⟩ : PacketBufferEntry).totalDataBytes →
      checkReceivedPacket
        ⟨some 1, [⟨5, 2⟩], [(5, ⟨false, 3, [mkPacket 5 0 3 [1, 2]], 2⟩)]⟩ 5
        ⟨false, 3, [mkPacket 5 0 3 [1, 2]], 2⟩
      = (⟨some 1, [⟨5, 2⟩], [(5, ⟨false, 3, [mkPacket 5 0 3 [1, 2]], 2⟩)]⟩, []))) :=
  ⟨by decide, by decide,
   C5_completeness_gate
     ⟨some 1, [⟨5, 2⟩], [(5, ⟨false, 3, [mkPacket 5 0 3 [1, 2]], 2⟩)]⟩ 5
     ⟨false, 3, [mkPacket 5 0 3 [1, 2]], 2⟩ ⟨5, 2⟩ []
     (by decide) (by decide)⟩

/-- C6: for an unhandled entry and an incoming same-counter fragment
whose subIndex is not the last stored subIndex plus one, the assembler
deletes the entry entirely and drops the triggering fragment with no
callbacks; concretely, after ingesting the subIndex sequence [0,1,3] for
one counter (with a listener expecting 100 bytes so the entry survives
the intermediate checks), no entry exists for the listID, and a
subsequent subIndex-0 fragment starts a fresh accumulation holding only
that fragment. -/
theorem C6_gap_discards (st : ReceiverState) (index : Nat)
    (e : PacketBufferEntry) (f : Packet)
    (hlook : lookupBuffer st.packetBuffer index = some e)
    (_hunh : e.handled = false)
    (hidx : f.header.index = index)
    (hctr : f.header.counter = e.counter)
    (hgap : f.header.subIndex ≠ lastSubIndex e + 1) :
    (handleReceivedPacket st f =
      ({ st with packetBuffer := deleteBuffer st.packetBuffer index }, []) ∧
     lookupBuffer (handleReceivedPacket st f).1.packetBuffer index = none) ∧
    (lookupBuffer
      ((handleReceivedPacket
        ((handleReceivedPacket
          ((handleReceivedPacket ⟨some 1, [⟨9, 100⟩], []⟩
            (mkPacket 9 0 5 [1])).1)
          (mkPacket 9 1 5 [2])).1)
        (mkPacket 9 3 5 [3])).1).packetBuffer 9 = none ∧
     lookupBuffer
      ((handleReceivedPacket
        ((handleReceivedPacket
          ((handleReceivedPacket
            ((handleReceivedPacket ⟨some 1, [⟨9, 100⟩], []⟩
              (mkPacket 9 0 5 [1])).1)
            (mkPacket 9 1 5 [2])).1)
          (mkPacket 9 3 5 [3])).1)
        (mkPacket 9 0 5 [9])).1).packetBuffer 9
      = some ⟨false, 5, [mkPacket 9 0 5 [9]], 1⟩) := by
  have hmain : handleReceivedPacket st f =
      ({ st with packetBuffer := deleteBuffer st.packetBuffer index }, []) := by
    unfold handleReceivedPacket
    dsimp only
    rw [hidx, hlook]
    dsimp only
    rw [if_pos hctr.symm, if_neg hgap]
  refine ⟨⟨hmain, ?_⟩, by decide, by decide⟩
  rw [hmain]
  exact lookupBuffer_deleteBuffer st.packetBuffer index

/-- Witness for C6 at a concrete state holding fragments 0 and 1 of
counter 5 when the subIndex-3 fragment arrives. -/
theorem C6_gap_discards_witness :
    lookupBuffer
      ([(9, ⟨false, 5, [mkPacket 9 0 5 [1], mkPacket 9 1 5 [2]], 2⟩)]) 9
      = some ⟨false, 5, [mkPacket 9 0 5 [1], mkPacket 9 1 5 [2]], 2⟩ ∧
    (handleReceivedPacket
        ⟨some 1, [⟨9, 100⟩], [(9, ⟨false, 5, [mkPacket 9 0 5 [1], mkPacket 9 1 5 [2]], 2⟩)]⟩
        (mkPacket 9 3 5 [3]) =
      ({ (⟨some 1, [⟨9, 100⟩],
            [(9, ⟨false, 5, [mkPacket 9 0 5 [1], mkPacket 9 1 5 [2]], 2⟩)]⟩
            : ReceiverState) with
          packetBuffer := deleteBuffer
            [(9, ⟨false, 5, [mkPacket 9 0 5 [1], mkPacket 9 1 5 [2]], 2⟩)] 9 }, []) ∧
     lookupBuffer
       (handleReceivedPacket
         ⟨some 1, [⟨9, 100⟩],
           [(9, ⟨false, 5, [mkPacket 9 0 5 [1], mkPacket 9 1 5 [2]], 2⟩)]⟩
         (mkPacket 9 3 5 [3])).1.packetBuffer 9 = none) :=
  ⟨by decide,
   (C6_gap_discards
     ⟨some 1, [⟨9, 100⟩], [(9, ⟨false, 5, [mkPacket 9 0 5 [1], mkPacket 9 1 5 [2]], 2⟩)]⟩
     9 ⟨false, 5, [mkPacket 9 0 5 [1], mkPacket 9 1 5 [2]], 2⟩
     (mkPacket 9 3 5 [3])
     (by decide) rfl rfl rfl (by decide)).1⟩

lemma sumPayloadLengths_append (xs : List Packet) (p : Packet) :
    sumPayloadLengths (xs ++ [p]) = sumPayloadLengths xs + p.payload.rawData.length := by
  simp [sumPayloadLengths]

/-- A handled buffer entry used to evaluate the receive path: counter 7,
one stored 3-byte fragment, totalDataBytes 3. -/
def handledEntry : PacketBufferEntry :=
  ⟨true, 7, [mkPacket 1 0 7 [10, 20, 30]], 3⟩

/-- C1 counterexample: a handled entry is not inert. With a handled
entry for listID 1 (counter 7, one stored 3-byte fragment, matching the
listener's expected 3 bytes): a same-counter in-order fragment with an
empty payload is appended to the handled entry and re-invokes the
listener's callback with the old entry's assembled data [10, 20, 30];
and a fragment with a different counter (9) and subIndex 2 ≠ 0 also
re-invokes the callback with the old assembled data, because the
receive path re-runs the completeness check on the old entry instead of
discarding the fragment silently. -/
theorem C1_counterexample :
    (lookupBuffer [(1, handledEntry)] 1).map (fun e => e.handled) = some true ∧
    (handleReceivedPacket ⟨some 1, [⟨1, 3⟩], [(1, handledEntry)]⟩
        (mkPacket 1 1 7 [])).2
      = [(⟨1, 3⟩, [10, 20, 30])] ∧
    (handleReceivedPacket ⟨some 1, [⟨1, 3⟩], [(1, handledEntry)]⟩
        (mkPacket 1 2 9 [5])).2
      = [(⟨1, 3⟩, [10, 20, 30])] := by
  decide

/-- C1 (amended): once handled, an entry is neither inert nor always
superseded. A fragment with a different counter and subIndex 0 replaces
it, and any callbacks carry only the new fragment's own payload. A
fragment with a different counter and subIndex ≠ 0 leaves the old entry
in the map but re-runs the completeness check on it: with no listeners
left the entry is deleted; with listeners whose first match still
expects exactly the entry's total (the normal state of a handled
entry), every matching callback re-fires with the old assembled data.
A same-counter in-order fragment is appended to the handled entry and
the callbacks re-fire with the old data extended by the new payload
whenever the new total equals the expected length again (e.g. an empty
payload); a same-counter out-of-order fragment deletes the handled
entry silently. A fragment with subIndex ≠ 0 that attaches to no entry
at all is discarded silently. -/
theorem C1_amended_handled_entry (st : ReceiverState) (index : Nat)
    (e : PacketBufferEntry) (f : Packet)
    (hlook : lookupBuffer st.packetBuffer index = some e)
    (hh : e.handled = true)
    (hidx : f.header.index = index)
    (hsum : e.totalDataBytes = sumPayloadLengths e.packets) :
    (f.header.counter ≠ e.counter → f.header.subIndex ≠ 0 →
      st.handlers.filter (fun l => l.listID == index) = [] →
      handleReceivedPacket st f =
        ({ st with packetBuffer := deleteBuffer st.packetBuffer index }, [])) ∧
    (∀ l0 ls, f.header.counter ≠ e.counter → f.header.subIndex ≠ 0 →
      st.handlers.filter (fun l => l.listID == index) = l0 :: ls →
      handleReceivedPacket st f =
        if l0.byteLength = e.totalDataBytes then
          ({ st with packetBuffer :=
              setBuffer st.packetBuffer index { e with handled := true } },
           (l0 :: ls).map (fun l =>
             (l, (e.packets.map (fun p => p.payload.rawData)).flatten)))
        else (st, [])) ∧
    (f.header.counter ≠ e.counter → f.header.subIndex = 0 →
      ∀ d ∈ (handleReceivedPacket st f).2, d.2 = f.payload.rawData) ∧
    (∀ l0 ls, f.header.counter = e.counter →
      f.header.subIndex = lastSubIndex e + 1 →
      st.handlers.filter (fun l => l.listID == index) = l0 :: ls →
      (handleReceivedPacket st f).2 =
        (if e.totalDataBytes + f.payload.rawData.length = l0.byteLength then
          (l0 :: ls).map (fun l =>
            (l, (e.packets.map (fun p => p.payload.rawData)).flatten
                  ++ f.payload.rawData))
         else [])) ∧
    (f.header.counter = e.counter → f.header.subIndex ≠ lastSubIndex e + 1 →
      handleReceivedPacket st f =
        ({ st with packetBuffer := deleteBuffer st.packetBuffer index }, [])) := by
  refine ⟨?_, ?_, ?_, ?_, ?_⟩
  · intro hc hs hfil
    unfold handleReceivedPacket
    dsimp only
    rw [hidx, hlook]
    dsimp only
    rw [if_neg (show ¬(e.counter = f.header.counter) from fun h => hc h.symm),
      if_neg hs, if_pos hh, if_pos hh]
    unfold checkReceivedPacket
    dsimp only
    rw [hfil]
  · intro l0 ls hc hs hfil
    unfold handleReceivedPacket
    dsimp only
    rw [hidx, hlook]
    dsimp only
    rw [if_neg (show ¬(e.counter = f.header.counter) from fun h => hc h.symm),
      if_neg hs, if_pos hh, if_pos hh]
    unfold checkReceivedPacket
    dsimp only
    rw [hfil]
    dsimp only
    rw [convertBufferEntriesToPacket_eq e hsum]
  · intro hc hs
    unfold handleReceivedPacket
    dsimp only
    rw [hidx, hlook]
    dsimp only
    rw [if_neg (show ¬(e.counter = f.header.counter) from fun h => hc h.symm),
      if_pos hh, if_pos hs]
    unfold checkReceivedPacket
    dsimp only
    have hconv : convertBufferEntriesToPacket
        ⟨false, f.header.counter, [f], f.payload.rawData.length⟩
        = f.payload.rawData := by
      rw [convertBufferEntriesToPacket_eq _ (by simp [sumPayloadLengths])]
      simp
    cases hfil : List.filter (fun l => l.listID == index) st.handlers with
    | nil => intro d hd; simp at hd
    | cons l0 ls =>
      dsimp only
      split
      · intro d hd
        rw [hconv] at hd
        simp at hd
        rcases hd with rfl | ⟨a, ha, rfl⟩
        · rfl
        · rfl
      · intro d hd
        simp at hd
  · intro l0 ls hctr hord hfil
    unfold handleReceivedPacket
    dsimp only
    rw [hidx, hlook]
    dsimp only
    rw [if_pos hctr.symm, if_pos hord]
    unfold checkReceivedPacket
    dsimp only
    rw [hfil]
    dsimp only
    have hconv : convertBufferEntriesToPacket
        ⟨e.handled, e.counter, e.packets ++ [f],
          e.totalDataBytes + f.payload.rawData.length⟩
        = (e.packets.map (fun p => p.payload.rawData)).flatten
            ++ f.payload.rawData := by
      rw [convertBufferEntriesToPacket_eq _ (by
        simp only [sumPayloadLengths_append]
        omega)]
      simp
    by_cases hE : e.totalDataBytes + f.payload.rawData.length = l0.byteLength
    · rw [if_pos hE,
        if_pos (show l0.byteLength
          = e.totalDataBytes + f.payload.rawData.length from hE.symm)]
      rw [hconv]
    · rw [if_neg hE,
        if_neg (show ¬(l0.byteLength
          = e.totalDataBytes + f.payload.rawData.length) from fun h => hE h.symm)]
  · intro hctr hgap
    unfold handleReceivedPacket
    dsimp only
    rw [hidx, hlook]
    dsimp only
    rw [if_pos hctr.symm, if_neg hgap]

/-- Witness for the amended C1: a different-counter, nonzero-subIndex
fragment re-runs the completeness check on the handled entry, which
still matches the listener's expected length, so the callback re-fires
with the old assembled data. -/
theorem C1_amended_handled_entry_witness :
    lookupBuffer [(1, handledEntry)] 1 = some handledEntry ∧
    handledEntry.handled = true ∧
    handleReceivedPacket ⟨some 1, [⟨1, 3⟩], [(1, handledEntry)]⟩
        (mkPacket 1 2 9 [5])
      = (if (⟨1, 3⟩ : Listener).byteLength = handledEntry.totalDataBytes then
          ({ (⟨some 1, [⟨1, 3⟩], [(1, handledEntry)]⟩ : ReceiverState) with
              packetBuffer := setBuffer
                (⟨some 1, [⟨1, 3⟩], [(1, handledEntry)]⟩
                  : ReceiverState).packetBuffer 1
                { handledEntry with handled := true } },
           ((⟨1, 3⟩ : Listener) :: []).map (fun l =>
             (l, (handledEntry.packets.map (fun p => p.payload.rawData)).flatten)))
         else (⟨some 1, [⟨1, 3⟩], [(1, handledEntry)]⟩, [])) :=
  ⟨by decide, rfl,
   (C1_amended_handled_entry
     ⟨some 1, [⟨1, 3⟩], [(1, handledEntry)]⟩
     1 handledEntry (mkPacket 1 2 9 [5])
     (by decide) rfl rfl (by decide)).2.1 ⟨1, 3⟩ []
     (by decide) (by decide) (by decide)⟩

/-- C9: the receive path ignores the header's packetLength field when
accumulating data: the parsed payload is the datagram's bytes after
offset 20 (actual datagram length minus 20); an in-order ingest adds the
actual payload length to the entry's totalDataBytes; and a concrete
30-byte datagram whose packetLength field claims 100 contributes 10
bytes to the entry, not 80. -/
theorem C9_actual_payload_length (data : ByteBuf) (st : ReceiverState)
    (index : Nat) (e : PacketBufferEntry) (f : Packet)
    (l0 : Listener) (ls : List Listener)
    (hlen : 20 ≤ data.length)
    (hlook : lookupBuffer st.packetBuffer index = some e)
    (hidx : f.header.index = index)
    (hctr : f.header.counter = e.counter)
    (hord : f.header.subIndex = lastSubIndex e + 1)
    (hfil : st.handlers.filter (fun l => l.listID == index) = l0 :: ls) :
    (∃ p, parseReceivedPacket data = .ok p ∧
      p.payload.rawData = data.drop 20 ∧
      p.payload.rawData.length = data.length - 20) ∧
    (∃ e', lookupBuffer (handleReceivedPacket st f).1.packetBuffer index = some e' ∧
      e'.totalDataBytes = e.totalDataBytes + f.payload.rawData.length) ∧
    (∃ q, parseReceivedPacket
        ([0, 45, 83, 51, 0, 0, 0, 0, 9, 0, 0, 0, 1, 0, 100, 0, 5, 0, 0, 0]
          ++ List.replicate 10 7) = .ok q ∧
      q.header.packetLength = 100 ∧
      q.payload.rawData.length = 10) := by
  refine ⟨?_, ?_, ?_⟩
  · obtain ⟨p, hp, hpay, hplen, _⟩ := parseReceivedPacket_ok hlen
    exact ⟨p, hp, hpay, hplen⟩
  · unfold handleReceivedPacket
    dsimp only
    rw [hidx, hlook]
    dsimp only
    rw [if_pos hctr.symm, if_pos hord]
    unfold checkReceivedPacket
    dsimp only
    rw [hfil]
    dsimp only
    split
    · exact ⟨_, lookupBuffer_setBuffer_self _ _ _, rfl⟩
    · exact ⟨_, lookupBuffer_setBuffer_self _ _ _, rfl⟩
  · obtain ⟨q, hq, _, hqlen, _, _, hqpkt⟩ :=
      @parseReceivedPacket_ok
        ([0, 45, 83, 51, 0, 0, 0, 0, 9, 0, 0, 0, 1, 0, 100, 0, 5, 0, 0, 0]
          ++ List.replicate 10 7) (by decide)
    refine ⟨q, hq, ?_, ?_⟩
    · rw [hqpkt]; decide
    · rw [hqlen]; decide

/-- Witness for C9 at a concrete datagram, state and in-order fragment. -/
theorem C9_actual_payload_length_witness :
    20 ≤ (List.replicate 25 1 : ByteBuf).length ∧
    lookupBuffer ([(5, ⟨false, 3, [mkPacket 5 0 3 [1, 2]], 2⟩)]) 5
      = some ⟨false, 3, [mkPacket 5 0 3 [1, 2]], 2⟩ ∧
    (∃ e', lookupBuffer
        (handleReceivedPacket
          ⟨some 1, [⟨5, 50⟩], [(5, ⟨false, 3, [mkPacket 5 0 3 [1, 2]], 2⟩)]⟩
          (mkPacket 5 1 3 [7, 8, 9])).1.packetBuffer 5 = some e' ∧
      e'.totalDataBytes =
        (⟨false, 3, [mkPacket 5 0 3 [1, 2]], 2⟩ : PacketBufferEntry).totalDataBytes
          + (mkPacket 5 1 3 [7, 8, 9]).payload.rawData.length) :=
  ⟨by decide, by decide,
   (C9_actual_payload_length (List.replicate 25 1)
     ⟨some 1, [⟨5, 50⟩], [(5, ⟨false, 3, [mkPacket 5 0 3 [1, 2]], 2⟩)]⟩
     5 ⟨false, 3, [mkPacket 5 0 3 [1, 2]], 2⟩ (mkPacket 5 1 3 [7, 8, 9])
     ⟨5, 50⟩ []
     (by decide) (by decide) rfl rfl (by decide) (by decide)).2.1⟩

/-- The element descriptors tile the raw buffer contiguously from byte
`pos` up to byte `len`, in order. -/
def TilesFrom : List Element → Nat → Nat → Prop
  | [], pos, len => pos = len
  | e :: es, pos, len => e.startIndex = pos ∧ TilesFrom es (pos + e.byteLength) len

lemma sendStep_concat (listID counterNo : Nat) (rawData : ByteBuf) :
    ∀ (es : List Element) (packets : List Packet) (cur : Packet) (pos : Nat),
      ((packets.map (fun p => p.payload.rawData)).flatten ++ cur.payload.rawData
        = rawData.take pos) →
      TilesFrom es pos rawData.length →
      (((es.foldl (sendStep listID counterNo rawData) (packets, cur)).1
          ++ [(es.foldl (sendStep listID counterNo rawData) (packets, cur)).2]).map
        (fun p => p.payload.rawData)).flatten = rawData := by
  intro es
  induction es with
  | nil =>
    intro packets cur pos hinv htile
    simp only [TilesFrom] at htile
    subst htile
    rw [List.take_length] at hinv
    simp only [List.foldl_nil, List.map_append, List.flatten_append]
    simpa using hinv
  | cons e es ih =>
    intro packets cur pos hinv htile
    obtain ⟨hstart, htile'⟩ := htile
    rw [List.foldl_cons]
    unfold sendStep
    dsimp only
    by_cases hfit : cur.header.payloadLength + (e.byteLength : Int) > 256
    · rw [if_pos hfit]
      refine ih _ _ (pos + e.byteLength) ?_ htile'
      rw [hstart, List.take_add, ← hinv]
      simp [getEmptyPacket]
    · rw [if_neg hfit]
      refine ih _ _ (pos + e.byteLength) ?_ htile'
      rw [hstart, List.take_add, ← hinv]
      simp

lemma sendStep_counter (listID counterNo : Nat) (rawData : ByteBuf) :
    ∀ (es : List Element) (packets : List Packet) (cur : Packet),
      (∀ p ∈ packets, p.header.counter = counterNo) →
      cur.header.counter = counterNo →
      ∀ p ∈ (es.foldl (sendStep listID counterNo rawData) (packets, cur)).1
          ++ [(es.foldl (sendStep listID counterNo rawData) (packets, cur)).2],
        p.header.counter = counterNo := by
  intro es
  induction es with
  | nil =>
    intro packets cur hps hcur p hp
    simp only [List.foldl_nil, List.mem_append, List.mem_singleton] at hp
    rcases hp with hp | rfl
    · exact hps p hp
    · exact hcur
  | cons e es ih =>
    intro packets cur hps hcur
    rw [List.foldl_cons]
    unfold sendStep
    dsimp only
    by_cases hfit : cur.header.payloadLength + (e.byteLength : Int) > 256
    · rw [if_pos hfit]
      refine ih _ _ ?_ rfl
      intro p hp
      rcases List.mem_append.mp hp with hp | hp
      · exact hps p hp
      · rw [List.mem_singleton.mp hp]
        exact hcur
    · rw [if_neg hfit]
      exact ih _ _ hps hcur

lemma sendStep_subIndex (listID counterNo : Nat) (rawData : ByteBuf) :
    ∀ (es : List Element) (packets : List Packet) (cur : Packet),
      packets.map (fun p => p.header.subIndex) = List.range packets.length →
      cur.header.subIndex = packets.length →
      ((es.foldl (sendStep listID counterNo rawData) (packets, cur)).1
          ++ [(es.foldl (sendStep listID counterNo rawData) (packets, cur)).2]).map
        (fun p => p.header.subIndex)
      = List.range ((es.foldl (sendStep listID counterNo rawData) (packets, cur)).1
          ++ [(es.foldl (sendStep listID counterNo rawData) (packets, cur)).2]).length := by
  intro es
  induction es with
  | nil =>
    intro packets cur hps hcur
    simp only [List.foldl_nil, List.map_append, List.length_append, List.map_cons,
      List.map_nil, List.length_cons, List.length_nil]
    rw [hps, hcur]
    rw [show packets.length + (0 + 1) = packets.length + 1 from by omega,
      List.range_succ]
  | cons e es ih =>
    intro packets cur hps hcur
    rw [List.foldl_cons]
    unfold sendStep
    dsimp only
    by_cases hfit : cur.header.payloadLength + (e.byteLength : Int) > 256
    · rw [if_pos hfit]
      refine ih _ _ ?_ ?_
      · simp only [List.map_append, List.length_append, List.map_cons, List.map_nil,
          List.length_cons, List.length_nil]
        rw [hps, hcur, show packets.length + (0 + 1) = packets.length + 1 from by omega,
          List.range_succ]
      · simp only [List.length_append, List.length_cons, List.length_nil]
        rw [hcur]
    · rw [if_neg hfit]
      exact ih _ _ hps hcur

/-- C7: round-trip. When the schema's field descriptors tile the raw
message buffer contiguously in order, concatenating the payloads of the
packets produced by the sender's splitting loop (which are emitted in
subIndex order 0,1,2,...) yields exactly the raw buffer, and all packets
of the one send call carry the same counter value. -/
theorem C7_roundtrip (listID counterNo : Nat) (elements : List Element)
    (rawData : ByteBuf) (htile : TilesFrom elements 0 rawData.length) :
    ((splitToPackets listID counterNo elements rawData).map
        (fun p => p.payload.rawData)).flatten = rawData ∧
    (∀ p ∈ splitToPackets listID counterNo elements rawData,
      p.header.counter = counterNo) ∧
    (splitToPackets listID counterNo elements rawData).map
        (fun p => p.header.subIndex)
      = List.range (splitToPackets listID counterNo elements rawData).length := by
  unfold splitToPackets
  dsimp only
  exact ⟨sendStep_concat listID counterNo rawData elements []
      (getEmptyPacket listID counterNo) 0 rfl htile,
    sendStep_counter listID counterNo rawData elements []
      (getEmptyPacket listID counterNo) (by simp) rfl,
    sendStep_subIndex listID counterNo rawData elements []
      (getEmptyPacket listID counterNo) rfl rfl⟩

/-- Witness for C7 at a concrete 3-byte message split into two fields. -/
theorem C7_roundtrip_witness :
    TilesFrom [⟨0, 2⟩, ⟨2, 1⟩] 0 ([5, 6, 7] : ByteBuf).length ∧
    (((splitToPackets 4 9 [⟨0, 2⟩, ⟨2, 1⟩] [5, 6, 7]).map
        (fun p => p.payload.rawData)).flatten = [5, 6, 7] ∧
     (∀ p ∈ splitToPackets 4 9 [⟨0, 2⟩, ⟨2, 1⟩] [5, 6, 7],
       p.header.counter = 9) ∧
     (splitToPackets 4 9 [⟨0, 2⟩, ⟨2, 1⟩] [5, 6, 7]).map
        (fun p => p.header.subIndex)
       = List.range (splitToPackets 4 9 [⟨0, 2⟩, ⟨2, 1⟩] [5, 6, 7]).length) :=
  ⟨⟨rfl, rfl, rfl⟩, C7_roundtrip 4 9 [⟨0, 2⟩, ⟨2, 1⟩] [5, 6, 7] ⟨rfl, rfl, rfl⟩⟩

lemma sendStep_fst_pos (listID counterNo : Nat) (rawData : ByteBuf)
    (packets : List Packet) (cur : Packet) (e : Element)
    (h : cur.header.payloadLength + (e.byteLength : Int) > 256) :
    (sendStep listID counterNo rawData (packets, cur) e).1 = packets ++ [cur] := by
  unfold sendStep
  dsimp only
  rw [if_pos h]

lemma sendStep_fst_neg (listID counterNo : Nat) (rawData : ByteBuf)
    (packets : List Packet) (cur : Packet) (e : Element)
    (h : ¬(cur.header.payloadLength + (e.byteLength : Int) > 256)) :
    (sendStep listID counterNo rawData (packets, cur) e).1 = packets := by
  unfold sendStep
  dsimp only
  rw [if_neg h]

lemma sendStep_snd_sub_pos (listID counterNo : Nat) (rawData : ByteBuf)
    (packets : List Packet) (cur : Packet) (e : Element)
    (h : cur.header.payloadLength + (e.byteLength : Int) > 256) :
    (sendStep listID counterNo rawData (packets, cur) e).2.header.subIndex
      = cur.header.subIndex + 1 := by
  unfold sendStep
  dsimp only
  rw [if_pos h]

lemma sendStep_snd_pay_pos (listID counterNo : Nat) (rawData : ByteBuf)
    (packets : List Packet) (cur : Packet) (e : Element)
    (h : cur.header.payloadLength + (e.byteLength : Int) > 256) :
    (sendStep listID counterNo rawData (packets, cur) e).2.payload.rawData
      = (rawData.drop e.startIndex).take e.byteLength := by
  unfold sendStep
  dsimp only
  rw [if_pos h]
  simp [getEmptyPacket]

lemma sendStep_snd_sub_neg (listID counterNo : Nat) (rawData : ByteBuf)
    (packets : List Packet) (cur : Packet) (e : Element)
    (h : ¬(cur.header.payloadLength + (e.byteLength : Int) > 256)) :
    (sendStep listID counterNo rawData (packets, cur) e).2.header.subIndex
      = cur.header.subIndex := by
  unfold sendStep
  dsimp only
  rw [if_neg h]

lemma sendStep_snd_pay_neg (listID counterNo : Nat) (rawData : ByteBuf)
    (packets : List Packet) (cur : Packet) (e : Element)
    (h : ¬(cur.header.payloadLength + (e.byteLength : Int) > 256)) :
    (sendStep listID counterNo rawData (packets, cur) e).2.payload.rawData
      = cur.payload.rawData ++ (rawData.drop e.startIndex).take e.byteLength := by
  unfold sendStep
  dsimp only
  rw [if_neg h]

lemma sendStep_second_packet (listID counterNo : Nat) (rawData : ByteBuf) :
    ∀ (es : List Element) (acc : List Packet × Packet),
      ∃ q rest,
        (es.foldl (sendStep listID counterNo rawData) acc).1
            ++ [(es.foldl (sendStep listID counterNo rawData) acc).2]
          = acc.1 ++ q :: rest ∧
        q.header.subIndex = acc.2.header.subIndex ∧
        ∃ t, q.payload.rawData = acc.2.payload.rawData ++ t := by
  intro es
  induction es with
  | nil =>
    intro acc
    exact ⟨acc.2, [], by simp, rfl, [], by simp⟩
  | cons e es ih =>
    intro acc
    obtain ⟨packets, cur⟩ := acc
    rw [List.foldl_cons]
    obtain ⟨q, rest, hlist, hsub, t, hpay⟩ :=
      ih (sendStep listID counterNo rawData (packets, cur) e)
    by_cases hfit : cur.header.payloadLength + (e.byteLength : Int) > 256
    · rw [sendStep_fst_pos listID counterNo rawData packets cur e hfit] at hlist
      refine ⟨cur, q :: rest, ?_, rfl, [], by simp⟩
      rw [hlist]
      simp
    · rw [sendStep_fst_neg listID counterNo rawData packets cur e hfit] at hlist
      rw [sendStep_snd_sub_neg listID counterNo rawData packets cur e hfit] at hsub
      rw [sendStep_snd_pay_neg listID counterNo rawData packets cur e hfit] at hpay
      refine ⟨q, rest, hlist, hsub,
        ⟨(rawData.drop e.startIndex).take e.byteLength ++ t, ?_⟩⟩
      rw [hpay, List.append_assoc]

/-- C10: when the first field yielded by the schema's element iterator is
larger than 256 bytes, the sender's packet list begins with an empty
packet (subIndex 0, variableCount 0, packetLength 20, empty payload)
followed by the packet at subIndex 1 whose payload starts with the
oversized field's bytes; in general the splitting step emits the current
packet whenever an oversized field would be placed into a current packet
whose payload is still empty. -/
theorem C10_oversized_first_field (listID counterNo : Nat) (e : Element)
    (es : List Element) (rawData : ByteBuf)
    (packets : List Packet) (cur : Packet)
    (hbig : 256 < e.byteLength)
    (hcurlen : cur.header.payloadLength = 0) :
    ((getEmptyPacket listID counterNo).header.subIndex = 0 ∧
     (getEmptyPacket listID counterNo).header.variableCount = 0 ∧
     (getEmptyPacket listID counterNo).header.packetLength = 20 ∧
     (getEmptyPacket listID counterNo).payload.rawData = []) ∧
    (∃ q rest, splitToPackets listID counterNo (e :: es) rawData
        = getEmptyPacket listID counterNo :: q :: rest ∧
      q.header.subIndex = 1 ∧
      ∃ t, q.payload.rawData
        = (rawData.drop e.startIndex).take e.byteLength ++ t) ∧
    (sendStep listID counterNo rawData (packets, cur) e).1 = packets ++ [cur] := by
  have hcond : ∀ c : Packet, c.header.payloadLength = 0 →
      c.header.payloadLength + (e.byteLength : Int) > 256 := by
    intro c hc
    rw [hc]
    omega
  refine ⟨⟨rfl, rfl, rfl, rfl⟩, ?_, ?_⟩
  · unfold splitToPackets
    dsimp only
    rw [List.foldl_cons]
    obtain ⟨q, rest, hlist, hsub, t, hpay⟩ :=
      sendStep_second_packet listID counterNo rawData es
        (sendStep listID counterNo rawData ([], getEmptyPacket listID counterNo) e)
    rw [sendStep_fst_pos _ _ _ _ _ _ (hcond _ rfl)] at hlist
    rw [sendStep_snd_sub_pos _ _ _ _ _ _ (hcond _ rfl)] at hsub
    rw [sendStep_snd_pay_pos _ _ _ _ _ _ (hcond _ rfl)] at hpay
    refine ⟨q, rest, ?_, ?_, ⟨t, hpay⟩⟩
    · rw [hlist]
      simp
    · rw [hsub]
      rfl
  · exact sendStep_fst_pos listID counterNo rawData packets cur e (hcond _ hcurlen)

/-- Witness for C10 at a concrete 300-byte single-field message. -/
theorem C10_oversized_first_field_witness :
    256 < (⟨0, 300⟩ : Element).byteLength ∧
    (getEmptyPacket 3 4).header.payloadLength = 0 ∧
    (∃ q rest, splitToPackets 1 2 [⟨0, 300⟩] (List.replicate 300 7)
        = getEmptyPacket 1 2 :: q :: rest ∧
      q.header.subIndex = 1 ∧
      ∃ t, q.payload.rawData
        = ((List.replicate 300 7 : ByteBuf).drop
            (⟨0, 300⟩ : Element).startIndex).take (⟨0, 300⟩ : Element).byteLength ++ t) ∧
    (sendStep 1 2 (List.replicate 300 7) ([], getEmptyPacket 3 4) ⟨0, 300⟩).1
      = [] ++ [getEmptyPacket 3 4] :=
  ⟨by decide, rfl,
   (C10_oversized_first_field 1 2 ⟨0, 300⟩ [] (List.replicate 300 7)
     [] (getEmptyPacket 3 4) (by decide) rfl).2.1,
   (C10_oversized_first_field 1 2 ⟨0, 300⟩ [] (List.replicate 300 7)
     [] (getEmptyPacket 3 4) (by decide) rfl).2.2⟩

end CodesysClient
